import Mathlib

/-!
Verification of the baseline-relative trajectory transform pipeline
implemented in NED/NED.py and NED/NED2.py.

Records are modelled as association lists from field names to raw string
values (Python csv.DictReader rows).  Python numeric parsing is modelled on
the fragment of literals this development uses: `int()` accepts an optional
sign followed by ASCII digits; `float()` accepts an optional sign followed by
either decimal digits with an optional fractional part and an optional
exponent part, or one of the lowercase special strings inf, infinity, nan
(surrounding whitespace, case variants of the special strings and underscore
separators of the full Python grammar are outside the modelled fragment; no
input considered here uses them).  `str.isdigit` is modelled on ASCII digits
plus the superscript digit characters U+00B9, U+00B2, U+00B3, which carry
the Unicode digit property — so `isdigit` accepts them — while `int()`
rejects them; that combination makes the `isdigit`-guarded lookback of
NED2.py raise `ValueError` after the current row was already appended, and
the model keeps that path.  Floating point values are modelled by `PyFloat`:
a rational for finite values plus the three non-finite values that Python's
`float()` can produce from a string.  The geometric functions
(`calculate_baseline_vectors`, `transform_to_baseline_coordinate`) are
modelled over the real numbers.
-/

namespace NEDSpec

/-- Numeric value of a list of ASCII digit characters, most significant
first. -/
def digitsToNat (l : List Char) : Nat :=
  l.foldl (fun acc c => 10 * acc + (c.toNat - 48)) 0

/-- Nonempty and every character an ASCII digit. -/
def isDigits (l : List Char) : Bool :=
  !l.isEmpty && l.all Char.isDigit

/-- Characters accepted by Python `str.isdigit` in the modelled fragment:
ASCII decimal digits plus the superscript digits, which have the Unicode
digit property (so `str.isdigit` is true on them) without being decimal
digits (so `int()` raises `ValueError` on them). -/
def pyIsdigitChar (c : Char) : Bool :=
  c.isDigit || c = '¹' || c = '²' || c = '³'

/-- Model of Python `str.isdigit` on the modelled fragment: nonempty and all
characters digit-like — false on signed strings such as "-3", but true on
superscript digits such as "²", which `int()` nevertheless rejects. -/
def isdigitStr (s : String) : Bool :=
  !s.toList.isEmpty && s.toList.all pyIsdigitChar

/-- Model of Python `int(s)` on the modelled fragment: optional sign followed
by at least one ASCII digit; `none` models `ValueError`. -/
def pyInt (s : String) : Option Int :=
  match s.toList with
  | [] => none
  | c :: rest =>
    if c = '+' then
      if isDigits rest then some (digitsToNat rest : Int) else none
    else if c = '-' then
      if isDigits rest then some (-(digitsToNat rest : Int)) else none
    else
      if isDigits (c :: rest) then some (digitsToNat (c :: rest) : Int) else none

/-- A Python floating point value as produced by `float(s)`: either a finite
value (modelled exactly as a rational) or one of the non-finite values. -/
inductive PyFloat where
  | finite (q : ℚ)
  | inf
  | neginf
  | nan
deriving DecidableEq, Repr

/-- Split a character list at the first occurrence of `c`; the second
component is `none` when `c` does not occur. -/
def splitOnChar (c : Char) : List Char → List Char × Option (List Char)
  | [] => ([], none)
  | x :: xs =>
    if x = c then ([], some xs)
    else
      let p := splitOnChar c xs
      (x :: p.1, p.2)

/-- Parse the mantissa part `digits[.digits]` (at least one digit overall,
as in Python, where "1.", ".5" are legal but "." and "" are not). -/
def parseMantissa (l : List Char) : Option ℚ :=
  let p := splitOnChar '.' l
  match p.2 with
  | none => if isDigits l then some (digitsToNat l : ℚ) else none
  | some frac =>
    if (p.1.all Char.isDigit && frac.all Char.isDigit) && !(p.1.isEmpty && frac.isEmpty) then
      some ((digitsToNat p.1 : ℚ) + (digitsToNat frac : ℚ) / 10 ^ frac.length)
    else none

/-- Parse a signed exponent `[sign]digits`. -/
def parseExponent (l : List Char) : Option Int :=
  match l with
  | [] => none
  | c :: rest =>
    if c = '+' then
      if isDigits rest then some (digitsToNat rest : Int) else none
    else if c = '-' then
      if isDigits rest then some (-(digitsToNat rest : Int)) else none
    else
      if isDigits (c :: rest) then some (digitsToNat (c :: rest) : Int) else none

/-- Parse an unsigned float body: special strings or `mantissa[e exponent]`. -/
def parseFloatBody (l : List Char) : Option ℚ :=
  let p := splitOnChar 'e' l
  match p.2 with
  | none => parseMantissa l
  | some ex =>
    match parseMantissa p.1, parseExponent ex with
    | some m, some e => some (m * 10 ^ e)
    | _, _ => none

/-- Model of Python `float(s)` on the modelled fragment; `none` models
`ValueError`. -/
def pyFloat (s : String) : Option PyFloat :=
  match s.toList with
  | [] => none
  | c :: rest =>
    if c = '+' then
      if rest = "inf".toList ∨ rest = "infinity".toList then some .inf
      else if rest = "nan".toList then some .nan
      else (parseFloatBody rest).map .finite
    else if c = '-' then
      if rest = "inf".toList ∨ rest = "infinity".toList then some .neginf
      else if rest = "nan".toList then some .nan
      else (parseFloatBody rest).map (fun q => .finite (-q))
    else
      if (c :: rest) = "inf".toList ∨ (c :: rest) = "infinity".toList then some .inf
      else if (c :: rest) = "nan".toList then some .nan
      else (parseFloatBody (c :: rest)).map .finite

/-- Model of Python `str.strip()`: drop whitespace from both ends. -/
def pyStrip (s : String) : String :=
  String.mk (((s.toList.dropWhile Char.isWhitespace).reverse.dropWhile
    Char.isWhitespace).reverse)

/-- A CSV row as produced by csv.DictReader: field name to raw string value. -/
abbrev Record := List (String × String)

/-- Model of `row.get(k)`: value of the first binding of field `k`. -/
def getField (r : Record) (k : String) : Option String :=
  (r.find? (fun p => p.1 = k)).map (fun p => p.2)

/-- Python truthiness of `row.get(k)`: the field is present and nonempty. -/
def truthy (o : Option String) : Bool :=
  match o with
  | none => false
  | some s => !(s = "")

/-- The raw string of a field, defaulting to "" (only used under a `truthy`
guard, where the field is present). -/
def fieldStr (r : Record) (k : String) : String :=
  (getField r k).getD ""

/-- The integer status signal of a record: `int(row['turn_status'])` when the
field is present and nonempty and parses, `none` otherwise. -/
def statusOf (r : Record) : Option Int :=
  if truthy (getField r "turn_status") then pyInt (fieldStr r "turn_status") else none

namespace NED

/-- NED.py lines 66-71: the comprehension
`[int(prev_row['turn_status']) for prev_row in turn_status_data[-5:] if prev_row.get('turn_status')]`.
`turn_status_data[-5:]` is the last five (or fewer) accumulated rows;
`int(...)` may raise `ValueError`, which the comprehension propagates to the
enclosing handler, so the result is an `Option`. -/
def recent_statuses (acc : List Record) : Option (List Int) :=
  ((acc.drop (acc.length - 5)).filter (fun r => truthy (getField r "turn_status"))).mapM
    (fun r => pyInt (fieldStr r "turn_status"))

/-- The per-row loop of NED.py `filter_turn_status_data` (lines 54-75), with
the mutable state made explicit: `found` is `found_0_to_3` and `acc` is
`turn_status_data`.  Rows with an absent or empty `turn_status` are skipped
(`continue`), a `ValueError` from `int` skips the row, a row is appended only
once `found_0_to_3` holds, and after appending a row with status 1 the loop
breaks when a 3 occurs among the last five accumulated statuses (a
`ValueError` raised inside that check is caught and the loop continues). -/
def filterLoop (found : Bool) (acc : List Record) : List Record → List Record
  | [] => acc
  | row :: rest =>
    if !truthy (getField row "turn_status") then filterLoop found acc rest
    else
      match pyInt (fieldStr row "turn_status") with
      | none => filterLoop found acc rest
      | some status =>
        let found2 := found || status == 0
        if found2 then
          let acc2 := acc ++ [row]
          if status == 1 then
            match recent_statuses acc2 with
            | none => filterLoop found2 acc2 rest
            | some sts => if 3 ∈ sts then acc2 else filterLoop found2 acc2 rest
          else filterLoop found2 acc2 rest
        else filterLoop found2 acc rest

/-- NED.py lines 49-77: `filter_turn_status_data` (strict variant). -/
def filter_turn_status_data (data : List Record) : List Record :=
  filterLoop false [] data

end NED

namespace NED2

/-- The filter of NED2.py's lookback comprehension (line 117): the row is
included when its `turn_status` is present, nonempty and passes
`str.isdigit`.  The guard does NOT ensure `int` succeeds: superscript digits
pass `isdigit` but make `int` raise. -/
def lookbackGuard (r : Record) : Bool :=
  truthy (getField r "turn_status") && isdigitStr (fieldStr r "turn_status")

/-- NED2.py lines 114-118: the comprehension
`[int(prev_row['turn_status']) for prev_row in turn_status_data[-5:]
if prev_row.get('turn_status') and prev_row['turn_status'].isdigit()]`.
`int(...)` can still raise `ValueError` (on `isdigit`-true non-decimal
digits), which propagates out of the whole comprehension to the enclosing
handler, so the result is an `Option`. -/
def recent_statuses (acc : List Record) : Option (List Int) :=
  ((acc.drop (acc.length - 5)).filter lookbackGuard).mapM
    (fun r => pyInt (fieldStr r "turn_status"))

/-- The per-row loop of NED2.py `filter_turn_status_data` (lines 99-124),
with the mutable state explicit.  Unlike NED.py, a row with an absent, empty
or unparseable `turn_status` is appended when `found_0_to_3` already holds
(lines 100-103 and 121-124).  When the row's status is 1 and the lookback
comprehension raises `ValueError`, the exception reaches the handler at
lines 121-124 AFTER the row was appended at line 111, and the handler
appends the same row a second time. -/
def filterLoop (found : Bool) (acc : List Record) : List Record → List Record
  | [] => acc
  | row :: rest =>
    if !truthy (getField row "turn_status") then
      filterLoop found (if found then acc ++ [row] else acc) rest
    else
      match pyInt (fieldStr row "turn_status") with
      | none => filterLoop found (if found then acc ++ [row] else acc) rest
      | some status =>
        let found2 := found || status == 0
        if found2 then
          let acc2 := acc ++ [row]
          if status == 1 then
            match recent_statuses acc2 with
            | none => filterLoop found2 (acc2 ++ [row]) rest
            | some sts => if 3 ∈ sts then acc2 else filterLoop found2 acc2 rest
          else filterLoop found2 acc2 rest
        else filterLoop found2 acc rest

/-- NED2.py lines 89-126: `filter_turn_status_data` (tolerant variant).  When
no row has a truthy `turn_status` the input is returned unchanged (lines
92-94), and when the loop accumulates nothing the input is returned unchanged
(line 126). -/
def filter_turn_status_data (data : List Record) : List Record :=
  if data.any (fun row => truthy (getField row "turn_status")) then
    let r := filterLoop false [] data
    if r.isEmpty then data else r
  else data

end NED2

/-- NED.py line 20 and NED2.py line 32: `REQUIRED_FIELDS`. -/
def REQUIRED_FIELDS : List String :=
  ["target_lat", "target_lon", "heading_deg", "offset_deg"]

/-- The dictionary returned by `extract_reference_data`. -/
structure ReferenceData where
  target_lat : PyFloat
  target_lon : PyFloat
  heading_deg : PyFloat
  offset_deg : PyFloat
deriving DecidableEq, Repr

namespace NED

/-- NED.py lines 79-92: `extract_reference_data`.  Scans rows in order; on
the first row whose four required fields are all truthy it attempts
`float()` on each, returning the parsed dictionary, and a `ValueError` from
any of the four conversions moves on to the next row. -/
def extract_reference_data : List Record → Option ReferenceData
  | [] => none
  | row :: rest =>
    if REQUIRED_FIELDS.all (fun f => truthy (getField row f)) then
      match pyFloat (fieldStr row "target_lat"), pyFloat (fieldStr row "target_lon"),
            pyFloat (fieldStr row "heading_deg"), pyFloat (fieldStr row "offset_deg") with
      | some tlat, some tlon, some hdg, some off =>
        some { target_lat := tlat, target_lon := tlon, heading_deg := hdg, offset_deg := off }
      | _, _, _, _ => extract_reference_data rest
    else extract_reference_data rest

end NED

namespace NED2

/-- NED2.py line 131: the guard `row.get(field) and row[field].strip()` —
the field is present, nonempty, and nonempty after stripping whitespace. -/
def presentNonblank (row : Record) (f : String) : Bool :=
  truthy (getField row f) && !(pyStrip (fieldStr row f) = "")

/-- NED2.py lines 128-141: `extract_reference_data`; identical to the NED.py
variant except that the guard also rejects whitespace-only fields. -/
def extract_reference_data : List Record → Option ReferenceData
  | [] => none
  | row :: rest =>
    if REQUIRED_FIELDS.all (fun f => presentNonblank row f) then
      match pyFloat (fieldStr row "target_lat"), pyFloat (fieldStr row "target_lon"),
            pyFloat (fieldStr row "heading_deg"), pyFloat (fieldStr row "offset_deg") with
      | some tlat, some tlon, some hdg, some off =>
        some { target_lat := tlat, target_lon := tlon, heading_deg := hdg, offset_deg := off }
      | _, _, _, _ => extract_reference_data rest
    else extract_reference_data rest

/-- The per-row loop of NED2.py `extract_cross_track_error_data` (lines
183-199), with the enumeration counter `i` explicit.  For a row whose
`cross_track_error` is truthy and parses, the appended timestamp is
`i if not row.get('timestamp') else i` (line 193) — the index in either
branch — and the parsed error is appended in lockstep; a `ValueError` skips
the row. -/
def ctLoop (i : Nat) : List Record → List Nat × List PyFloat
  | [] => ([], [])
  | row :: rest =>
    if truthy (getField row "cross_track_error") then
      match pyFloat (fieldStr row "cross_track_error") with
      | some error =>
        let timestamp := if !truthy (getField row "timestamp") then i else i
        let p := ctLoop (i + 1) rest
        (timestamp :: p.1, error :: p.2)
      | none => ctLoop (i + 1) rest
    else ctLoop (i + 1) rest

/-- NED2.py lines 183-199: `extract_cross_track_error_data`, returning the
parallel lists `(timestamps, errors)`. -/
def extract_cross_track_error_data (data : List Record) : List Nat × List PyFloat :=
  ctLoop 0 data

end NED2

/-! ### Geometry

`calculate_baseline_vectors` (NED.py lines 94-108, NED2.py lines 143-153)
and `transform_to_baseline_coordinate` (NED.py lines 123-139, NED2.py lines
168-181) are character-for-character the same computation in both files and
are modelled once, over the real numbers. -/

/-- NED.py lines 94-108 and NED2.py lines 143-153:
`calculate_baseline_vectors(heading_deg, offset_deg)`, returning the tuple
`(baseline_unit_x, baseline_unit_y, baseline_perp_x, baseline_perp_y,
baseline_heading)`; `math.radians(x)` is `x * pi / 180`. -/
noncomputable def calculate_baseline_vectors (heading_deg offset_deg : ℝ) :
    ℝ × ℝ × ℝ × ℝ × ℝ :=
  let baseline_heading := heading_deg - offset_deg
  let baseline_rad := baseline_heading * Real.pi / 180
  let baseline_unit_x := Real.sin baseline_rad
  let baseline_unit_y := Real.cos baseline_rad
  let baseline_perp_x := baseline_unit_y
  let baseline_perp_y := -baseline_unit_x
  (baseline_unit_x, baseline_unit_y, baseline_perp_x, baseline_perp_y, baseline_heading)

/-- NED.py lines 123-139 and NED2.py lines 168-181:
`transform_to_baseline_coordinate`; for each projected point,
`dx, dy = point - target`, cross-track `dx*perp_x + dy*perp_y`, along-track
`dx*unit_x + dy*unit_y`, collected in input order. -/
noncomputable def transform_to_baseline_coordinate :
    List (ℝ × ℝ) → ℝ → ℝ → ℝ → ℝ → ℝ → ℝ → List (ℝ × ℝ)
  | [], _, _, _, _, _, _ => []
  | (x, y) :: rest, target_x, target_y, unit_x, unit_y, perp_x, perp_y =>
    let dx := x - target_x
    let dy := y - target_y
    (dx * perp_x + dy * perp_y, dx * unit_x + dy * unit_y)
      :: transform_to_baseline_coordinate rest target_x target_y unit_x unit_y perp_x perp_y

/-- The error kind the specification's taxonomy (section 7) assigns to the
Geodetic Projector; no such type exists anywhere in the source, it is
declared here only so that the claimed failure behaviour can be stated. -/
inductive ProjectionError where
  | invalidInput
deriving DecidableEq, Repr

/-- NED.py lines 33-35 and NED2.py lines 77-79: `latlon_to_xy` is the single
expression `self.proj(lon, lat)`; `self.proj` (the pyproj projection, here an
abstract function argument) is called with default `errcheck=False`, under
which pyproj returns coordinate values (infinities on projection failure)
rather than raising, so the embedding in the error monad is always `ok`:
the function has no failure path and performs no input validation. -/
def latlon_to_xy (proj : ℝ → ℝ → ℝ × ℝ) (lat lon : ℝ) :
    Except ProjectionError (ℝ × ℝ) :=
  .ok (proj lon lat)

/-! ### Specification-side definitions

The following definitions transcribe the specification's wording (for the
refinement statements and counterexamples); they are compared against the
source-derived definitions above. -/

/-- Whether a `PyFloat` is finite. -/
def isFinitePF : PyFloat → Bool
  | .finite _ => true
  | _ => false

/-- The parsed reference dictionary of a row all four of whose fields parse
(the default is never reached on qualifying rows). -/
def parseRef (row : Record) : ReferenceData :=
  { target_lat := (pyFloat (fieldStr row "target_lat")).getD .nan
    target_lon := (pyFloat (fieldStr row "target_lon")).getD .nan
    heading_deg := (pyFloat (fieldStr row "heading_deg")).getD .nan
    offset_deg := (pyFloat (fieldStr row "offset_deg")).getD .nan }

/-- Claim C4's qualification condition: all four reference fields truthy and
parsing as finite floats. -/
def qualifiesC4 (row : Record) : Bool :=
  REQUIRED_FIELDS.all (fun f =>
    truthy (getField row f) && ((pyFloat (fieldStr row f)).map isFinitePF).getD false)

/-- Spec wording of claim C4 (first qualifying record), with the claimed
finiteness requirement. -/
def reference_claimC4 (data : List Record) : Option ReferenceData :=
  (data.find? qualifiesC4).map parseRef

/-- Amended qualification for the NED.py extractor: all four fields truthy
and parsing (finite or not). -/
def qualifiesNED (row : Record) : Bool :=
  REQUIRED_FIELDS.all (fun f =>
    truthy (getField row f) && (pyFloat (fieldStr row f)).isSome)

/-- Amended spec wording for the NED.py extractor: parsed values of the
first record all four of whose fields are truthy and parse. -/
def reference_specNED (data : List Record) : Option ReferenceData :=
  (data.find? qualifiesNED).map parseRef

/-- Amended qualification for the NED2.py extractor: all four fields truthy,
non-blank after stripping, and parsing. -/
def qualifiesNED2 (row : Record) : Bool :=
  REQUIRED_FIELDS.all (fun f =>
    NED2.presentNonblank row f && (pyFloat (fieldStr row f)).isSome)

/-- Amended spec wording for the NED2.py extractor. -/
def reference_specNED2 (data : List Record) : Option ReferenceData :=
  (data.find? qualifiesNED2).map parseRef

/-- Spec wording of claim C8: the cross-track sample an enumerated row
contributes — its position paired with its parsed `cross_track_error` when
that field is truthy and parses, nothing otherwise. -/
def sampleOf (p : Nat × Record) : Option (Nat × PyFloat) :=
  if truthy (getField p.2 "cross_track_error") then
    (pyFloat (fieldStr p.2 "cross_track_error")).map (fun e => (p.1, e))
  else none

/-- Claim C8's sample condition with the claimed finiteness requirement. -/
def sampleOfFinite (p : Nat × Record) : Option (Nat × PyFloat) :=
  (sampleOf p).bind (fun s => if isFinitePF s.2 then some s else none)

/-- A record that cannot trigger NED2's lookback `ValueError`: whenever its
`turn_status` passes the `isdigit` guard, `int()` also accepts it.  Rows
violating this (superscript-digit statuses such as "²") are the ones whose
presence in the lookback window aborts the check. -/
def goodStatus (r : Record) : Bool :=
  !NED2.lookbackGuard r || (pyInt (fieldStr r "turn_status")).isSome

/-! ### Concrete inputs used by the claims -/

/-- A record with only an index field and a `turn_status` field. -/
def stRec (i : Nat) (st : String) : Record :=
  [("i", toString i), ("turn_status", st)]

/-- The input of claim C1: records whose statuses are 5, 5, 0, 1, 2, 3, 1, 9
in that order (the index field keeps equal-status records distinct). -/
def c1_input : List Record :=
  [stRec 0 "5", stRec 1 "5", stRec 2 "0", stRec 3 "1",
   stRec 4 "2", stRec 5 "3", stRec 6 "1", stRec 7 "9"]

/-- The output claim C1 expects: the records with statuses 0, 1, 2, 3, 1. -/
def c1_expected : List Record :=
  [stRec 2 "0", stRec 3 "1", stRec 4 "2", stRec 5 "3", stRec 6 "1"]

/-- A record whose `turn_status` is `0`: it switches the filter to ACTIVE. -/
def rec_zero : Record := [("turn_status", "0")]

/-- A record whose `turn_status` does not parse as an integer. -/
def rec_bad : Record := [("turn_status", "x")]

/-- A record whose `turn_status` passes `str.isdigit` but fails `int()`:
the superscript digit "²". -/
def rec_sup : Record := [("turn_status", "²")]

/-- A sequence none of whose records has a `turn_status` parsing to 0. -/
def c3_input : List Record := [stRec 0 "5", stRec 1 "7"]

/-- The counterexample input of claim C10: statuses "0", "²", "1".  When the
status-1 row is processed, the lookback window contains the "²" row, whose
status passes `isdigit` but makes `int()` raise; NED2's handler then appends
the status-1 row a second time. -/
def c10_input : List Record := [stRec 0 "0", stRec 1 "²", stRec 2 "1"]

/-- The counterexample input of claim C4: every reference field truthy and
parseable, but `target_lat` parses to the non-finite value `inf`. -/
def c4_input : List Record :=
  [[("target_lat", "inf"), ("target_lon", "1"),
    ("heading_deg", "2"), ("offset_deg", "3")]]

/-- The example input of claim C8: `cross_track_error` values
"1.2", "", "abc", "-0.3". -/
def c8_example : List Record :=
  [[("cross_track_error", "1.2")], [("cross_track_error", "")],
   [("cross_track_error", "abc")], [("cross_track_error", "-0.3")]]

/-- The counterexample input of claim C8: a `cross_track_error` that parses
to the non-finite value `inf`. -/
def c8_input : List Record :=
  [[("cross_track_error", "inf")]]

/-! ### Theorems -/

/-- Claim C1: on the input whose records carry turn_status values
[5, 5, 0, 1, 2, 3, 1, 9] in that order, both variants of
filter_turn_status_data return exactly the records with statuses
[0, 1, 2, 3, 1] — the records before the first 0 are discarded, and after
the second status-1 record is appended a 3 is found among the last five
appended statuses, stopping the filter before the status-9 record. -/
theorem claim_C1 :
    NED.filter_turn_status_data c1_input = c1_expected ∧
    NED2.filter_turn_status_data c1_input = c1_expected := by
  constructor <;> rfl

/-- Counterexample to claim C2: in the NED.py variant (one of the two cited
implementations) a record whose `turn_status` does not parse is NOT appended
while the machine is ACTIVE — after `rec_zero` activates the filter, the
unparseable `rec_bad` is dropped, so the output is `[rec_zero]` and does not
contain `rec_bad`, contradicting the claim that such records appear in the
filtered output. -/
theorem claim_C2_counterexample :
    NED.filter_turn_status_data [rec_zero, rec_bad] = [rec_zero] ∧
    rec_bad ∉ NED.filter_turn_status_data [rec_zero, rec_bad] := by
  constructor
  · rfl
  · decide

/-- Counterexample to claim C4: a record whose four reference fields are all
present and parseable but whose `target_lat` parses to the non-finite value
`inf` is returned by both variants of `extract_reference_data` (neither
checks finiteness), while the claim's finiteness condition would pass the
record over and yield absence. -/
theorem claim_C4_counterexample :
    NED.extract_reference_data c4_input =
      some { target_lat := .inf, target_lon := .finite 1,
             heading_deg := .finite 2, offset_deg := .finite 3 } ∧
    NED2.extract_reference_data c4_input =
      some { target_lat := .inf, target_lon := .finite 1,
             heading_deg := .finite 2, offset_deg := .finite 3 } ∧
    reference_claimC4 c4_input = none := by
  refine ⟨?_, ?_, ?_⟩ <;> decide

/-- Counterexample to claim C8: a record whose `cross_track_error` is the
string "inf" parses to a non-finite float; the claim's condition (parse as a
finite float) would emit no sample for it, but the code emits the sample
`(0, inf)` — finiteness is never checked. -/
theorem claim_C8_counterexample :
    NED2.extract_cross_track_error_data c8_input = ([0], [.inf]) ∧
    c8_input.enum.filterMap sampleOfFinite = [] := by
  constructor <;> rfl

/-- Counterexample to claim C9: at the out-of-range latitude 91 the code
does not fail with a `ProjectionError` — `latlon_to_xy` has no validation
and no failure path, and returns the projection library's output. -/
theorem claim_C9_counterexample :
    (90 : ℝ) < 91 ∧
    latlon_to_xy (fun lon lat => (lon, lat)) 91 0 = Except.ok ((0 : ℝ), 91) := by
  exact ⟨by norm_num, rfl⟩

/-- Claim C9 as amended: `latlon_to_xy` performs no input validation and
never fails; for every input, in or out of range, it returns the projection
library's value at `(lon, lat)` (and no `ProjectionError` is ever raised —
the type does not even exist in the source). -/
theorem claim_C9_amended (proj : ℝ → ℝ → ℝ × ℝ) (lat lon : ℝ) :
    latlon_to_xy proj lat lon = Except.ok (proj lon lat) := rfl

/-- Claim C5: for all inputs, `calculate_baseline_vectors` returns
`unit = (sin(radians(heading - offset)), cos(radians(heading - offset)))`,
`perp = (unit_y, -unit_x)`, and the plain subtraction as `baseline_heading`;
consequently the squared norms are exactly 1 and the dot product exactly 0
(the real-number model makes the claimed 1e-9 tolerance an exact identity). -/
theorem claim_C5 (heading_deg offset_deg : ℝ) :
    calculate_baseline_vectors heading_deg offset_deg =
      (Real.sin ((heading_deg - offset_deg) * Real.pi / 180),
       Real.cos ((heading_deg - offset_deg) * Real.pi / 180),
       Real.cos ((heading_deg - offset_deg) * Real.pi / 180),
       -Real.sin ((heading_deg - offset_deg) * Real.pi / 180),
       heading_deg - offset_deg) ∧
    (calculate_baseline_vectors heading_deg offset_deg).1 ^ 2 +
      (calculate_baseline_vectors heading_deg offset_deg).2.1 ^ 2 = 1 ∧
    (calculate_baseline_vectors heading_deg offset_deg).2.2.1 ^ 2 +
      (calculate_baseline_vectors heading_deg offset_deg).2.2.2.1 ^ 2 = 1 ∧
    (calculate_baseline_vectors heading_deg offset_deg).1 *
        (calculate_baseline_vectors heading_deg offset_deg).2.2.1 +
      (calculate_baseline_vectors heading_deg offset_deg).2.1 *
        (calculate_baseline_vectors heading_deg offset_deg).2.2.2.1 = 0 := by
  refine ⟨rfl, ?_, ?_, ?_⟩
  · exact Real.sin_sq_add_cos_sq _
  · show Real.cos _ ^ 2 + (-Real.sin _) ^ 2 = 1
    rw [neg_sq]
    exact Real.cos_sq_add_sin_sq _
  · show Real.sin _ * Real.cos _ + Real.cos _ * -Real.sin _ = 0
    ring

/-- `transform_to_baseline_coordinate` is the map of the per-point formula
over the input list. -/
theorem transform_eq_map (pts : List (ℝ × ℝ)) (tx ty ux uy px py : ℝ) :
    transform_to_baseline_coordinate pts tx ty ux uy px py =
      pts.map (fun p =>
        ((p.1 - tx) * px + (p.2 - ty) * py, (p.1 - tx) * ux + (p.2 - ty) * uy)) := by
  induction pts with
  | nil => rfl
  | cons p rest ih =>
    obtain ⟨x, y⟩ := p
    simp only [transform_to_baseline_coordinate, List.map_cons, ih]

/-- Claim C6: for every list of projected points, target and frame,
`transform_to_baseline_coordinate` is total and returns one output per input
in input order, the i-th output being
`(dx*perp_x + dy*perp_y, dx*unit_x + dy*unit_y)` with `(dx, dy)` the i-th
point minus the target — stated as the map of that formula, which fixes
every position, plus length preservation. -/
theorem claim_C6 (pts : List (ℝ × ℝ)) (target_x target_y ux uy px py : ℝ) :
    transform_to_baseline_coordinate pts target_x target_y ux uy px py =
      pts.map (fun p =>
        ((p.1 - target_x) * px + (p.2 - target_y) * py,
         (p.1 - target_x) * ux + (p.2 - target_y) * uy)) ∧
    (transform_to_baseline_coordinate pts target_x target_y ux uy px py).length
      = pts.length := by
  refine ⟨transform_eq_map pts target_x target_y ux uy px py, ?_⟩
  rw [transform_eq_map]
  exact List.length_map _ _

/-- Claim C7: transforming the target point itself, with any baseline frame
produced by `calculate_baseline_vectors`, yields exactly (0, 0). -/
theorem claim_C7 (heading_deg offset_deg target_x target_y : ℝ) :
    transform_to_baseline_coordinate [(target_x, target_y)] target_x target_y
      (calculate_baseline_vectors heading_deg offset_deg).1
      (calculate_baseline_vectors heading_deg offset_deg).2.1
      (calculate_baseline_vectors heading_deg offset_deg).2.2.1
      (calculate_baseline_vectors heading_deg offset_deg).2.2.2.1
      = [((0 : ℝ), (0 : ℝ))] := by
  rw [transform_eq_map]
  simp

/-- While `found_0_to_3` is false and no remaining status parses to 0, the
NED.py filter loop appends nothing. -/
theorem NED_filterLoop_idle : ∀ (l : List Record),
    (∀ row ∈ l, statusOf row ≠ some 0) → ∀ acc, NED.filterLoop false acc l = acc := by
  intro l
  induction l with
  | nil => intro _ acc; rfl
  | cons row rest ih =>
    intro h acc
    have hrow := h row (List.mem_cons_self row rest)
    have hrest : ∀ r ∈ rest, statusOf r ≠ some 0 :=
      fun r hr => h r (List.mem_cons_of_mem _ hr)
    simp only [NED.filterLoop]
    cases ht : truthy (getField row "turn_status") with
    | false => simp only [ht, Bool.not_false, if_true]; exact ih hrest acc
    | true =>
      cases hp : pyInt (fieldStr row "turn_status") with
      | none => simp only [ht, Bool.not_true, Bool.false_eq_true, if_false]
                exact ih hrest acc
      | some status =>
        have hs : (status == 0) = false := by
          rw [beq_eq_false_iff_ne]
          intro h0
          exact hrow (by simp [statusOf, ht, hp, h0])
        simp only [ht, Bool.not_true, Bool.false_eq_true, if_false, hs, Bool.or_false]
        exact ih hrest acc

/-- Claim C3: whenever no record's `turn_status` parses to 0, the
strict-policy filter (NED.py) returns the empty sequence — the machine never
leaves IDLE. -/
theorem claim_C3 (data : List Record) (h : ∀ row ∈ data, statusOf row ≠ some 0) :
    NED.filter_turn_status_data data = [] :=
  NED_filterLoop_idle data h []

/-- Witness for claim C3: a concrete sequence with statuses 5 and 7. -/
theorem claim_C3_witness :
    (∀ row ∈ c3_input, statusOf row ≠ some 0) ∧
    NED.filter_turn_status_data c3_input = [] :=
  ⟨by decide, claim_C3 c3_input (by decide)⟩

/-- `mapM` over `Option` fails on a list whose last element fails. -/
theorem mapM_append_none {α β : Type} (f : α → Option β) (x : α) (hx : f x = none) :
    ∀ l : List α, (l ++ [x]).mapM f = none := by
  intro l
  induction l with
  | nil =>
    rw [List.nil_append, List.mapM_cons, hx]
    rfl
  | cons a as ih =>
    rw [List.cons_append, List.mapM_cons, ih]
    cases f a <;> rfl

/-- `mapM` over `Option` succeeds on a list of succeeding elements. -/
theorem mapM_isSome_of_forall {α β : Type} (f : α → Option β) :
    ∀ l : List α, (∀ a ∈ l, (f a).isSome = true) → (l.mapM f).isSome = true := by
  intro l
  induction l with
  | nil => intro _; rfl
  | cons a as ih =>
    intro h
    rw [List.mapM_cons]
    have ha := h a (List.mem_cons_self a as)
    have hrest := ih (fun x hx => h x (List.mem_cons_of_mem _ hx))
    cases hfa : f a with
    | none => rw [hfa] at ha; simp at ha
    | some b =>
      cases hr : as.mapM f with
      | none => rw [hr] at hrest; simp at hrest
      | some bs => rfl

/-- Appending a row that passes the `isdigit` guard but fails `int()` makes
the NED2 lookback over the resulting accumulator raise (`none`): the row is
the last element of the five-element window, so it is always inspected. -/
theorem recent_statuses_append_none (acc : List Record) (row : Record)
    (hg : NED2.lookbackGuard row = true)
    (hp : pyInt (fieldStr row "turn_status") = none) :
    NED2.recent_statuses (acc ++ [row]) = none := by
  unfold NED2.recent_statuses
  have hlen : (acc ++ [row]).length - 5 ≤ acc.length := by
    rw [List.length_append, List.length_singleton]
    omega
  rw [List.drop_append_of_le_length hlen, List.filter_append]
  have hfr : List.filter NED2.lookbackGuard [row] = [row] := by
    simp [List.filter_cons, hg]
  rw [hfr]
  exact mapM_append_none _ row hp _

/-- The NED2 lookback cannot raise over an accumulator of records whose
`isdigit`-accepted statuses are also `int()`-accepted. -/
theorem recent_statuses_isSome_of_good (m : List Record)
    (h : ∀ r ∈ m, goodStatus r = true) :
    (NED2.recent_statuses m).isSome = true := by
  unfold NED2.recent_statuses
  apply mapM_isSome_of_forall
  intro r hr
  rw [List.mem_filter] at hr
  obtain ⟨hdrop, hguard⟩ := hr
  have hgood := h r (List.mem_of_mem_drop hdrop)
  simp only [goodStatus, hguard, Bool.not_true, Bool.false_or] at hgood
  exact hgood

/-- Claim C2 as amended: while the machine is ACTIVE, a record with an
absent, empty or unparseable `turn_status` is appended by the NED2.py
variant but dropped by the NED.py variant.  For the lookback window: an
absent or empty status is excluded by the comprehension's guard, while an
unparseable status that passes `str.isdigit` (a superscript digit such as
"²") is not excluded — once in the window it makes the lookback raise
`ValueError` rather than merely not counting as 0, 1 or 3. -/
theorem claim_C2_amended (row : Record) (acc rest : List Record)
    (h : statusOf row = none) :
    NED2.filterLoop true acc (row :: rest) = NED2.filterLoop true (acc ++ [row]) rest ∧
    NED.filterLoop true acc (row :: rest) = NED.filterLoop true acc rest ∧
    (truthy (getField row "turn_status") = false → NED2.lookbackGuard row = false) ∧
    (NED2.lookbackGuard row = true → NED2.recent_statuses (acc ++ [row]) = none) := by
  cases ht : truthy (getField row "turn_status") with
  | false =>
    refine ⟨?_, ?_, ?_, ?_⟩
    · simp [NED2.filterLoop, ht]
    · simp [NED.filterLoop, ht]
    · intro _
      simp [NED2.lookbackGuard, ht]
    · intro hg
      simp [NED2.lookbackGuard, ht] at hg
  | true =>
    have hp : pyInt (fieldStr row "turn_status") = none := by
      simpa [statusOf, ht] using h
    refine ⟨?_, ?_, ?_, ?_⟩
    · simp [NED2.filterLoop, ht, hp]
    · simp [NED.filterLoop, ht, hp]
    · intro hcontra
      simp at hcontra
    · intro hg
      exact recent_statuses_append_none acc row hg hp

/-- Witness for claim C2 (amended) at a concrete record whose status "²"
passes `isdigit` but fails `int()`, exercising the raise branch. -/
theorem claim_C2_witness :
    statusOf rec_sup = none ∧
    (NED2.filterLoop true [] (rec_sup :: []) = NED2.filterLoop true ([] ++ [rec_sup]) [] ∧
     NED.filterLoop true [] (rec_sup :: []) = NED.filterLoop true [] [] ∧
     (truthy (getField rec_sup "turn_status") = false → NED2.lookbackGuard rec_sup = false) ∧
     (NED2.lookbackGuard rec_sup = true → NED2.recent_statuses ([] ++ [rec_sup]) = none)) :=
  ⟨by decide, claim_C2_amended rec_sup [] [] (by decide)⟩

/-- The NED.py filter loop only ever extends its accumulator with a
subsequence of the remaining input. -/
theorem NED_filterLoop_sublist : ∀ (l : List Record) (found : Bool) (acc : List Record),
    ∃ t, NED.filterLoop found acc l = acc ++ t ∧ t.Sublist l := by
  intro l
  induction l with
  | nil => intro found acc; exact ⟨[], by simp [NED.filterLoop], List.nil_sublist _⟩
  | cons row rest ih =>
    intro found acc
    simp only [NED.filterLoop]
    cases ht : truthy (getField row "turn_status") with
    | false =>
      obtain ⟨t, h1, h2⟩ := ih found acc
      exact ⟨t, by simp [ht, h1], List.Sublist.cons row h2⟩
    | true =>
      cases hp : pyInt (fieldStr row "turn_status") with
      | none =>
        obtain ⟨t, h1, h2⟩ := ih found acc
        exact ⟨t, by simp [ht, hp, h1], List.Sublist.cons row h2⟩
      | some status =>
        cases hf : (found || status == 0) with
        | false =>
          obtain ⟨t, h1, h2⟩ := ih false acc
          exact ⟨t, by simp [ht, hp, hf, h1], List.Sublist.cons row h2⟩
        | true =>
          cases hs1 : (status == 1) with
          | false =>
            obtain ⟨t, h1, h2⟩ := ih true (acc ++ [row])
            exact ⟨row :: t, by simp [ht, hp, hf, hs1, h1], List.Sublist.cons₂ row h2⟩
          | true =>
            cases hr : NED.recent_statuses (acc ++ [row]) with
            | none =>
              obtain ⟨t, h1, h2⟩ := ih true (acc ++ [row])
              exact ⟨row :: t, by simp [ht, hp, hf, hs1, hr, h1],
                List.Sublist.cons₂ row h2⟩
            | some sts =>
              by_cases h3 : 3 ∈ sts
              · exact ⟨[row], by simp [ht, hp, hf, hs1, hr, h3],
                  List.Sublist.cons₂ row (List.nil_sublist rest)⟩
              · obtain ⟨t, h1, h2⟩ := ih true (acc ++ [row])
                exact ⟨row :: t, by simp [ht, hp, hf, hs1, hr, h3, h1],
                  List.Sublist.cons₂ row h2⟩

/-- Over lookback-safe records the NED2.py filter loop only ever extends its
accumulator with a subsequence of the remaining input (without the safety
hypothesis the `ValueError` re-append branch can duplicate a record). -/
theorem NED2_filterLoop_sublist_good : ∀ (l : List Record) (found : Bool) (acc : List Record),
    (∀ r ∈ l, goodStatus r = true) → (∀ r ∈ acc, goodStatus r = true) →
    ∃ t, NED2.filterLoop found acc l = acc ++ t ∧ t.Sublist l := by
  intro l
  induction l with
  | nil => intro found acc _ _; exact ⟨[], by simp [NED2.filterLoop], List.nil_sublist _⟩
  | cons row rest ih =>
    intro found acc hl hacc
    have hrow : goodStatus row = true := hl row (List.mem_cons_self row rest)
    have hrest : ∀ r ∈ rest, goodStatus r = true :=
      fun r hr => hl r (List.mem_cons_of_mem _ hr)
    have hacc2 : ∀ r ∈ acc ++ [row], goodStatus r = true := by
      intro r hr
      rcases List.mem_append.mp hr with hr | hr
      · exact hacc r hr
      · rw [List.mem_singleton] at hr
        subst hr
        exact hrow
    simp only [NED2.filterLoop]
    cases ht : truthy (getField row "turn_status") with
    | false =>
      cases found with
      | false =>
        obtain ⟨t, h1, h2⟩ := ih false acc hrest hacc
        exact ⟨t, by simp [ht, h1], List.Sublist.cons row h2⟩
      | true =>
        obtain ⟨t, h1, h2⟩ := ih true (acc ++ [row]) hrest hacc2
        exact ⟨row :: t, by simp [ht, h1], List.Sublist.cons₂ row h2⟩
    | true =>
      cases hp : pyInt (fieldStr row "turn_status") with
      | none =>
        cases found with
        | false =>
          obtain ⟨t, h1, h2⟩ := ih false acc hrest hacc
          exact ⟨t, by simp [ht, hp, h1], List.Sublist.cons row h2⟩
        | true =>
          obtain ⟨t, h1, h2⟩ := ih true (acc ++ [row]) hrest hacc2
          exact ⟨row :: t, by simp [ht, hp, h1], List.Sublist.cons₂ row h2⟩
      | some status =>
        cases hf : (found || status == 0) with
        | false =>
          obtain ⟨t, h1, h2⟩ := ih false acc hrest hacc
          exact ⟨t, by simp [ht, hp, hf, h1], List.Sublist.cons row h2⟩
        | true =>
          cases hs1 : (status == 1) with
          | false =>
            obtain ⟨t, h1, h2⟩ := ih true (acc ++ [row]) hrest hacc2
            exact ⟨row :: t, by simp [ht, hp, hf, hs1, h1], List.Sublist.cons₂ row h2⟩
          | true =>
            have hsome := recent_statuses_isSome_of_good (acc ++ [row]) hacc2
            cases hr : NED2.recent_statuses (acc ++ [row]) with
            | none =>
              rw [hr] at hsome
              simp at hsome
            | some sts =>
              by_cases h3 : 3 ∈ sts
              · exact ⟨[row], by simp [ht, hp, hf, hs1, hr, h3],
                  List.Sublist.cons₂ row (List.nil_sublist rest)⟩
              · obtain ⟨t, h1, h2⟩ := ih true (acc ++ [row]) hrest hacc2
                exact ⟨row :: t, by simp [ht, hp, hf, hs1, hr, h3, h1],
                  List.Sublist.cons₂ row h2⟩

/-- Counterexample to claim C10: on the statuses "0", "²", "1" the NED2.py
filter appends the status-1 record TWICE — the lookback `int('²')` raises
under the `isdigit` guard after the append at line 111, and the `except`
handler at lines 121-123 appends the same record again — so the output is
not a subsequence of the input. -/
theorem claim_C10_counterexample :
    NED2.filter_turn_status_data c10_input =
      [stRec 0 "0", stRec 1 "²", stRec 2 "1", stRec 2 "1"] ∧
    ¬ (NED2.filter_turn_status_data c10_input).Sublist c10_input := by
  constructor
  · decide
  · intro hsub
    exact absurd hsub.length_le (by decide)

/-- Claim C10 as amended: the NED.py filter's output is always a subsequence
of the input (order preserved, multiplicities never increased, fallbacks
included); the NED2.py filter's output is a subsequence provided no record's
`turn_status` passes `str.isdigit` while failing `int()` — on such records
NED2's lookback `ValueError` path re-appends the just-appended record. -/
theorem claim_C10_amended (data : List Record) :
    (NED.filter_turn_status_data data).Sublist data ∧
    ((∀ r ∈ data, goodStatus r = true) →
      (NED2.filter_turn_status_data data).Sublist data) := by
  constructor
  · obtain ⟨t, h1, h2⟩ := NED_filterLoop_sublist data false []
    have he : NED.filter_turn_status_data data = t := by
      rw [NED.filter_turn_status_data, h1, List.nil_append]
    rw [he]
    exact h2
  · intro hgood
    rw [NED2.filter_turn_status_data]
    by_cases ha : (data.any fun row => truthy (getField row "turn_status")) = true
    · rw [if_pos ha]
      obtain ⟨t, h1, h2⟩ := NED2_filterLoop_sublist_good data false [] hgood
        (fun r hr => absurd hr (List.not_mem_nil r))
      simp only [h1, List.nil_append]
      by_cases he : t.isEmpty
      · rw [if_pos he]
      · rw [if_neg he]
        exact h2
    · rw [if_neg ha]

/-- Witness for claim C10 (amended) at a concrete all-decimal input. -/
theorem claim_C10_witness :
    (∀ r ∈ c1_input, goodStatus r = true) ∧
    (NED2.filter_turn_status_data c1_input).Sublist c1_input :=
  ⟨by decide, (claim_C10_amended c1_input).2 (by decide)⟩

/-- Unfolding `reference_specNED` over a qualifying head record. -/
theorem specNED_cons_pos (row : Record) (rest : List Record)
    (h : qualifiesNED row = true) :
    reference_specNED (row :: rest) = some (parseRef row) := by
  simp [reference_specNED, List.find?_cons, h]

/-- Unfolding `reference_specNED` over a non-qualifying head record. -/
theorem specNED_cons_neg (row : Record) (rest : List Record)
    (h : qualifiesNED row = false) :
    reference_specNED (row :: rest) = reference_specNED rest := by
  simp [reference_specNED, List.find?_cons, h]

/-- Unfolding `reference_specNED2` over a qualifying head record. -/
theorem specNED2_cons_pos (row : Record) (rest : List Record)
    (h : qualifiesNED2 row = true) :
    reference_specNED2 (row :: rest) = some (parseRef row) := by
  simp [reference_specNED2, List.find?_cons, h]

/-- Unfolding `reference_specNED2` over a non-qualifying head record. -/
theorem specNED2_cons_neg (row : Record) (rest : List Record)
    (h : qualifiesNED2 row = false) :
    reference_specNED2 (row :: rest) = reference_specNED2 rest := by
  simp [reference_specNED2, List.find?_cons, h]

/-- The NED.py reference extractor computes the first-qualifying-record
specification (qualification = all four fields truthy and parseable). -/
theorem extract_reference_eq_specNED : ∀ (data : List Record),
    NED.extract_reference_data data = reference_specNED data := by
  intro data
  induction data with
  | nil => rfl
  | cons row rest ih =>
    simp only [NED.extract_reference_data]
    by_cases hg : (REQUIRED_FIELDS.all fun f => truthy (getField row f)) = true
    · rw [if_pos hg]
      simp only [REQUIRED_FIELDS, List.all_cons, List.all_nil, Bool.and_true,
        Bool.and_eq_true] at hg
      cases h1 : pyFloat (fieldStr row "target_lat") with
      | none =>
        rw [specNED_cons_neg row rest (by simp [qualifiesNED, REQUIRED_FIELDS, h1])]
        simp only [h1]
        exact ih
      | some a =>
        cases h2 : pyFloat (fieldStr row "target_lon") with
        | none =>
          rw [specNED_cons_neg row rest (by simp [qualifiesNED, REQUIRED_FIELDS, h2])]
          simp only [h1, h2]
          exact ih
        | some b =>
          cases h3 : pyFloat (fieldStr row "heading_deg") with
          | none =>
            rw [specNED_cons_neg row rest (by simp [qualifiesNED, REQUIRED_FIELDS, h3])]
            simp only [h1, h2, h3]
            exact ih
          | some c =>
            cases h4 : pyFloat (fieldStr row "offset_deg") with
            | none =>
              rw [specNED_cons_neg row rest
                (by simp [qualifiesNED, REQUIRED_FIELDS, h4])]
              simp only [h1, h2, h3, h4]
              exact ih
            | some d =>
              rw [specNED_cons_pos row rest
                (by simp [qualifiesNED, REQUIRED_FIELDS, h1, h2, h3, h4,
                  hg.1, hg.2.1, hg.2.2.1, hg.2.2.2])]
              simp [h1, h2, h3, h4, parseRef]
    · rw [if_neg hg]
      have hq : qualifiesNED row = false := by
        rw [Bool.eq_false_iff]
        intro hqt
        apply hg
        simp only [qualifiesNED, REQUIRED_FIELDS, List.all_cons, List.all_nil,
          Bool.and_true, Bool.and_eq_true] at hqt
        simp only [REQUIRED_FIELDS, List.all_cons, List.all_nil, Bool.and_true,
          Bool.and_eq_true]
        exact ⟨hqt.1.1, hqt.2.1.1, hqt.2.2.1.1, hqt.2.2.2.1⟩
      rw [specNED_cons_neg row rest hq]
      exact ih

/-- The NED2.py reference extractor computes the first-qualifying-record
specification (qualification also requires non-blank fields). -/
theorem extract_reference_eq_specNED2 : ∀ (data : List Record),
    NED2.extract_reference_data data = reference_specNED2 data := by
  intro data
  induction data with
  | nil => rfl
  | cons row rest ih =>
    simp only [NED2.extract_reference_data]
    by_cases hg : (REQUIRED_FIELDS.all fun f => NED2.presentNonblank row f) = true
    · rw [if_pos hg]
      simp only [REQUIRED_FIELDS, List.all_cons, List.all_nil, Bool.and_true,
        Bool.and_eq_true] at hg
      cases h1 : pyFloat (fieldStr row "target_lat") with
      | none =>
        rw [specNED2_cons_neg row rest (by simp [qualifiesNED2, REQUIRED_FIELDS, h1])]
        simp only [h1]
        exact ih
      | some a =>
        cases h2 : pyFloat (fieldStr row "target_lon") with
        | none =>
          rw [specNED2_cons_neg row rest (by simp [qualifiesNED2, REQUIRED_FIELDS, h2])]
          simp only [h1, h2]
          exact ih
        | some b =>
          cases h3 : pyFloat (fieldStr row "heading_deg") with
          | none =>
            rw [specNED2_cons_neg row rest
              (by simp [qualifiesNED2, REQUIRED_FIELDS, h3])]
            simp only [h1, h2, h3]
            exact ih
          | some c =>
            cases h4 : pyFloat (fieldStr row "offset_deg") with
            | none =>
              rw [specNED2_cons_neg row rest
                (by simp [qualifiesNED2, REQUIRED_FIELDS, h4])]
              simp only [h1, h2, h3, h4]
              exact ih
            | some d =>
              rw [specNED2_cons_pos row rest
                (by simp [qualifiesNED2, REQUIRED_FIELDS, h1, h2, h3, h4,
                  hg.1, hg.2.1, hg.2.2.1, hg.2.2.2])]
              simp [h1, h2, h3, h4, parseRef]
    · rw [if_neg hg]
      have hq : qualifiesNED2 row = false := by
        rw [Bool.eq_false_iff]
        intro hqt
        apply hg
        simp only [qualifiesNED2, REQUIRED_FIELDS, List.all_cons, List.all_nil,
          Bool.and_true, Bool.and_eq_true] at hqt
        simp only [REQUIRED_FIELDS, List.all_cons, List.all_nil, Bool.and_true,
          Bool.and_eq_true]
        exact ⟨hqt.1.1, hqt.2.1.1, hqt.2.2.1.1, hqt.2.2.2.1⟩
      rw [specNED2_cons_neg row rest hq]
      exact ih

/-- Claim C4 as amended: both variants of `extract_reference_data` scan the
records in original order and return the values parsed from the first record
on which the four reference fields are simultaneously present as non-empty
strings (for NED2 also non-blank after stripping) and parse as floats —
finiteness of the parsed values is NOT checked — passing over records that
fail a condition and returning absence when no record qualifies. -/
theorem claim_C4_amended (data : List Record) :
    NED.extract_reference_data data = reference_specNED data ∧
    NED2.extract_reference_data data = reference_specNED2 data :=
  ⟨extract_reference_eq_specNED data, extract_reference_eq_specNED2 data⟩

/-- The cross-track loop started at counter `i` computes the unzipped
`sampleOf`-filterMap of the enumeration from `i`. -/
theorem ctLoop_eq (l : List Record) : ∀ i : Nat,
    NED2.ctLoop i l = (((List.enumFrom i l).filterMap sampleOf).map Prod.fst,
                       ((List.enumFrom i l).filterMap sampleOf).map Prod.snd) := by
  induction l with
  | nil => intro i; rfl
  | cons row rest ih =>
    intro i
    simp only [NED2.ctLoop, List.enumFrom, List.filterMap_cons]
    cases ht : truthy (getField row "cross_track_error") with
    | false => simp [sampleOf, ht, ih (i + 1)]
    | true =>
      cases hp : pyFloat (fieldStr row "cross_track_error") with
      | none => simp [sampleOf, ht, hp, ih (i + 1)]
      | some e => simp [sampleOf, ht, hp, ih (i + 1)]

/-- One step of the cross-track loop either keeps the index list of the rest
or prepends the current counter. -/
theorem ctLoop_cons_fst (i : Nat) (row : Record) (rest : List Record) :
    (NED2.ctLoop i (row :: rest)).1 = (NED2.ctLoop (i + 1) rest).1 ∨
    (NED2.ctLoop i (row :: rest)).1 = i :: (NED2.ctLoop (i + 1) rest).1 := by
  simp only [NED2.ctLoop]
  cases ht : truthy (getField row "cross_track_error") with
  | false => left; simp [ht]
  | true =>
    cases hp : pyFloat (fieldStr row "cross_track_error") with
    | none => left; simp [ht, hp]
    | some e => right; simp [ht, hp]

/-- The index list produced by the cross-track loop is bounded below by its
counter and strictly ascending. -/
theorem ctLoop_indices (l : List Record) : ∀ i : Nat,
    (∀ j ∈ (NED2.ctLoop i l).1, i ≤ j) ∧
    (NED2.ctLoop i l).1.Pairwise (· < ·) := by
  induction l with
  | nil =>
    intro i
    constructor
    · intro j hj
      simp [NED2.ctLoop] at hj
    · simp [NED2.ctLoop]
  | cons row rest ih =>
    intro i
    obtain ⟨hmem, hpw⟩ := ih (i + 1)
    rcases ctLoop_cons_fst i row rest with hcase | hcase <;> rw [hcase]
    · exact ⟨fun j hj => le_trans (Nat.le_succ i) (hmem j hj), hpw⟩
    · constructor
      · intro j hj
        rcases List.mem_cons.mp hj with rfl | hj2
        · exact le_refl j
        · exact le_trans (Nat.le_succ i) (hmem j hj2)
      · rw [List.pairwise_cons]
        exact ⟨fun j hj => lt_of_lt_of_le (Nat.lt_succ_self i) (hmem j hj), hpw⟩

/-- Claim C8 as amended: `extract_cross_track_error_data` emits one sample
`(i, value)` for each record at 0-based position `i` of its input whose
`cross_track_error` is present, nonempty and parses — finiteness is NOT
checked — skipping missing, empty and unparseable values; the emitted
indices are strictly ascending and determined by ordinal position only (the
`timestamp` field is read but both branches of line 193 yield the index);
and on the example values "1.2", "", "abc", "-0.3" the output is the sample
list (0, 1.2), (3, -0.3). -/
theorem claim_C8_amended :
    (∀ data : List Record,
      NED2.extract_cross_track_error_data data =
        ((data.enum.filterMap sampleOf).map Prod.fst,
         (data.enum.filterMap sampleOf).map Prod.snd) ∧
      List.Pairwise (fun a b => a < b)
        (NED2.extract_cross_track_error_data data).1) ∧
    NED2.extract_cross_track_error_data c8_example =
      ([0, 3], [.finite (6 / 5), .finite (-(3 / 10))]) := by
  refine ⟨fun data => ⟨?_, ?_⟩, ?_⟩
  · exact ctLoop_eq data 0
  · exact (ctLoop_indices data 0).2
  · have h12 : pyFloat "1.2" = some (.finite (6 / 5)) := by
      have e : pyFloat "1.2" = some (.finite
          ((digitsToNat ['1'] : ℚ) + (digitsToNat ['2'] : ℚ) / 10 ^ ['2'].length)) := rfl
      rw [e, show digitsToNat ['1'] = 1 from rfl, show digitsToNat ['2'] = 2 from rfl]
      norm_num
    have h03 : pyFloat "-0.3" = some (.finite (-(3 / 10))) := by
      have e : pyFloat "-0.3" = some (.finite
          (-((digitsToNat ['0'] : ℚ) + (digitsToNat ['3'] : ℚ) / 10 ^ ['3'].length))) := rfl
      rw [e, show digitsToNat ['0'] = 0 from rfl, show digitsToNat ['3'] = 3 from rfl]
      norm_num
    have habc : pyFloat "abc" = none := rfl
    have t1 : truthy (getField [("cross_track_error", "1.2")] "cross_track_error")
        = true := rfl
    have f1 : fieldStr [("cross_track_error", "1.2")] "cross_track_error" = "1.2" := rfl
    have t2 : truthy (getField [("cross_track_error", "")] "cross_track_error")
        = false := rfl
    have t3 : truthy (getField [("cross_track_error", "abc")] "cross_track_error")
        = true := rfl
    have f3 : fieldStr [("cross_track_error", "abc")] "cross_track_error" = "abc" := rfl
    have t4 : truthy (getField [("cross_track_error", "-0.3")] "cross_track_error")
        = true := rfl
    have f4 : fieldStr [("cross_track_error", "-0.3")] "cross_track_error" = "-0.3" := rfl
    show NED2.ctLoop 0 c8_example = _
    simp only [c8_example, NED2.ctLoop, t1, f1, h12, t2, t3, f3, habc, t4, f4, h03,
      ite_self, if_true, if_false, Bool.false_eq_true, Bool.true_eq_false]

end NEDSpec
